import Mathlib

/-!
Shallow embedding of the Purchase Order Service
(`src/purchase-order-system/backend/main.py`).

The service is a FastAPI CRUD application over one relational table
`purchase_orders`.  We embed it as pure Lean functions:

* the stored table is a `Db`: the ordered view of the table, i.e. the list
  of rows in ascending `id` order (the primary key makes ids unique and the
  storage assigns them monotonically; the well-formedness predicate `DbOk`
  records this), together with the storage's next id to assign;
* monetary values (`unit_price`, `total_price`, Python `float`) are embedded
  as `Rat` — every claim about them is about which product is stored and
  returned, not about rounding, and the code performs a single
  multiplication that the embedding mirrors exactly;
* `HTTPException` raised by a handler becomes an `Except` error value;
* FastAPI's query/path parameter validation (the `Query(ge=..., le=...)`
  declarations, integer parsing of the path id, and the defaults) is
  embedded as `..._request` wrappers that reject out-of-range or unparsable
  parameters with a 422 validation error before the handler body runs.
-/

/-- Calendar date (`datetime.date`); the service only passes dates through. -/
structure CalDate where
  year : Nat
  month : Nat
  day : Nat
deriving DecidableEq, Repr

/-- A stored row of the `purchase_orders` table (class `PurchaseOrder`).
`PurchaseOrderResponse` exposes exactly the same fields, so this structure
also serves as the single-order response body. -/
structure PurchaseOrder where
  id : Int
  item_name : String
  order_date : CalDate
  delivery_date : CalDate
  quantity : Int
  unit_price : Rat
  total_price : Rat
deriving DecidableEq, Repr

/-- Request body for creation (`PurchaseOrderCreate`). -/
structure PurchaseOrderCreate where
  item_name : String
  order_date : CalDate
  delivery_date : CalDate
  quantity : Int
  unit_price : Rat
deriving DecidableEq, Repr

/-- The storage state: the table's rows in ascending-id order, plus the next
id the storage backend will assign. -/
structure Db where
  rows : List PurchaseOrder
  nextId : Int
deriving DecidableEq, Repr

/-- Well-formed storage: rows are strictly ascending by `id` (primary key,
ordered view) and every assigned id is below the next one to assign. -/
def DbOk (db : Db) : Prop :=
  db.rows.Pairwise (fun a b => a.id < b.id) ∧ ∀ r ∈ db.rows, r.id < db.nextId

instance : DecidablePred DbOk := fun db => by
  unfold DbOk; infer_instance

/-- An error response raised as `HTTPException(status_code, detail)`. -/
structure HTTPException where
  status_code : Nat
  detail : String
deriving DecidableEq, Repr

instance {ε α : Type} [DecidableEq ε] [DecidableEq α] : DecidableEq (Except ε α) :=
  fun a b =>
    match a, b with
    | .ok x, .ok y =>
      if h : x = y then isTrue (by rw [h])
      else isFalse (fun hc => h (by cases hc; rfl))
    | .error x, .error y =>
      if h : x = y then isTrue (by rw [h])
      else isFalse (fun hc => h (by cases hc; rfl))
    | .ok _, .error _ => isFalse (fun hc => by cases hc)
    | .error _, .ok _ => isFalse (fun hc => by cases hc)

/-- Envelope of the v1/legacy list endpoint
(`SimplePaginatedPurchaseOrderResponse`). -/
structure SimplePaginatedPurchaseOrderResponse where
  data : List PurchaseOrder
  total : Int
  page : Int
  per_page : Int
  total_pages : Int
deriving DecidableEq, Repr

/-- Envelope of the v2 list endpoint (`PaginatedPurchaseOrderResponse`). -/
structure PaginatedPurchaseOrderResponse where
  data : List PurchaseOrder
  next_cursor : Option Int
  has_more : Bool
deriving DecidableEq, Repr

/-- `GET /api/v1/purchase-orders` handler body (`get_purchase_orders_v1`),
after parameter validation.  `offset`/`limit` of the storage query are
SQL OFFSET/LIMIT, embedded as `List.drop`/`List.take`; Python's floor
division `//` is `Int.fdiv`. -/
def get_purchase_orders_v1 (page per_page : Int) (db : Db) :
    SimplePaginatedPurchaseOrderResponse :=
  let offset : Int := (page - 1) * per_page
  let total : Int := db.rows.length
  let orders := (db.rows.drop offset.toNat).take per_page.toNat
  let total_pages : Int := Int.fdiv (total + per_page - 1) per_page
  { data := orders
    total := total
    page := page
    per_page := per_page
    total_pages := total_pages }

/-- `GET /api/v1/purchase-orders/{order_id}` handler (`get_purchase_order_v1`):
first row with the given id, or a 404. -/
def get_purchase_order_v1 (order_id : Int) (db : Db) :
    Except HTTPException PurchaseOrder :=
  match db.rows.find? (fun r => r.id == order_id) with
  | some order => .ok order
  | none => .error ⟨404, "Purchase order not found"⟩

/-- `POST /api/v1/purchase-orders` handler (`create_purchase_order_v1`):
derives `total_price = quantity * unit_price`, inserts the row (storage
assigns `db.nextId`), returns the stored record and the new state.
The route responds with status 201. -/
def create_purchase_order_v1 (order : PurchaseOrderCreate) (db : Db) :
    PurchaseOrder × Db :=
  let total_price : Rat := order.quantity * order.unit_price
  let db_order : PurchaseOrder :=
    { id := db.nextId
      item_name := order.item_name
      order_date := order.order_date
      delivery_date := order.delivery_date
      quantity := order.quantity
      unit_price := order.unit_price
      total_price := total_price }
  (db_order, { rows := db.rows ++ [db_order], nextId := db.nextId + 1 })

/-- `DELETE /api/v1/purchase-orders/{order_id}` handler
(`delete_purchase_order_v1`): deletes the first row with the given id, or
raises a 404 leaving the table untouched.  The route responds with status
204 on success. -/
def delete_purchase_order_v1 (order_id : Int) (db : Db) :
    Except HTTPException Unit × Db :=
  match db.rows.find? (fun r => r.id == order_id) with
  | none => (.error ⟨404, "Purchase order not found"⟩, db)
  | some _ => (.ok (), { db with rows := db.rows.eraseP (fun r => r.id == order_id) })

/-- HTTP status of a delete response: 204 (`status_code=204` on the route)
on success, the exception's code otherwise. -/
def deleteStatus (r : Except HTTPException Unit) : Nat :=
  match r with
  | .ok _ => 204
  | .error e => e.status_code

/-- HTTP status of a single-order fetch response: 200 on success, the
exception's code otherwise. -/
def getStatus (r : Except HTTPException PurchaseOrder) : Nat :=
  match r with
  | .ok _ => 200
  | .error e => e.status_code

/-- The query built by `get_purchase_orders_v2` (lines 158–161 of the
source): the stored rows ordered ascending by id, filtered to those with
`id` strictly greater than the cursor when one is given. -/
def afterCursor (cursor : Option Int) (rows : List PurchaseOrder) :
    List PurchaseOrder :=
  match cursor with
  | some c => rows.filter (fun r => c < r.id)
  | none => rows

/-- `GET /api/v2/purchase-orders` handler body (`get_purchase_orders_v2`),
after parameter validation: cursor pagination with the lookahead row. -/
def get_purchase_orders_v2 (cursor : Option Int) (limit : Int) (db : Db) :
    PaginatedPurchaseOrderResponse :=
  let query : List PurchaseOrder := afterCursor cursor db.rows
  let orders0 := query.take (limit + 1).toNat
  let has_more : Bool := decide (limit < (orders0.length : Int))
  let orders := if has_more then orders0.take limit.toNat else orders0
  let next_cursor : Option Int :=
    match orders.getLast?, has_more with
    | some last, true => some last.id
    | _, _ => none
  { data := orders
    next_cursor := next_cursor
    has_more := has_more }

/-- `GET /api/v2/purchase-orders/{order_id}` handler (`get_purchase_order_v2`):
identical body to the v1 handler. -/
def get_purchase_order_v2 (order_id : Int) (db : Db) :
    Except HTTPException PurchaseOrder :=
  match db.rows.find? (fun r => r.id == order_id) with
  | some order => .ok order
  | none => .error ⟨404, "Purchase order not found"⟩

/-- `POST /api/v2/purchase-orders` handler (`create_purchase_order_v2`):
identical body to the v1 handler. -/
def create_purchase_order_v2 (order : PurchaseOrderCreate) (db : Db) :
    PurchaseOrder × Db :=
  let total_price : Rat := order.quantity * order.unit_price
  let db_order : PurchaseOrder :=
    { id := db.nextId
      item_name := order.item_name
      order_date := order.order_date
      delivery_date := order.delivery_date
      quantity := order.quantity
      unit_price := order.unit_price
      total_price := total_price }
  (db_order, { rows := db.rows ++ [db_order], nextId := db.nextId + 1 })

/-- `DELETE /api/v2/purchase-orders/{order_id}` handler
(`delete_purchase_order_v2`): identical body to the v1 handler. -/
def delete_purchase_order_v2 (order_id : Int) (db : Db) :
    Except HTTPException Unit × Db :=
  match db.rows.find? (fun r => r.id == order_id) with
  | none => (.error ⟨404, "Purchase order not found"⟩, db)
  | some _ => (.ok (), { db with rows := db.rows.eraseP (fun r => r.id == order_id) })

/-- `GET /api/purchase-orders` (`get_purchase_orders_legacy`): the source
delegates to the v1 handler. -/
def get_purchase_orders_legacy (page per_page : Int) (db : Db) :
    SimplePaginatedPurchaseOrderResponse :=
  get_purchase_orders_v1 page per_page db

/-- `GET /api/purchase-orders/{order_id}` (`get_purchase_order_legacy`):
delegates to the v1 handler. -/
def get_purchase_order_legacy (order_id : Int) (db : Db) :
    Except HTTPException PurchaseOrder :=
  get_purchase_order_v1 order_id db

/-- `POST /api/purchase-orders` (`create_purchase_order_legacy`): delegates
to the v1 handler. -/
def create_purchase_order_legacy (order : PurchaseOrderCreate) (db : Db) :
    PurchaseOrder × Db :=
  create_purchase_order_v1 order db

/-- `DELETE /api/purchase-orders/{order_id}` (`delete_purchase_order_legacy`):
delegates to the v1 handler. -/
def delete_purchase_order_legacy (order_id : Int) (db : Db) :
    Except HTTPException Unit × Db :=
  delete_purchase_order_v1 order_id db

/-- Outcome of a request as seen by the client: either the handler's value,
or FastAPI's 422 validation rejection, issued before the handler (and hence
the data layer) is reached. -/
inductive RequestResult (α : Type) where
  | ok (value : α)
  | validationError
deriving DecidableEq, Repr

/-- Full v1/legacy list request: optional raw query parameters (`none` =
omitted, so the `Query` defaults `page=1`, `per_page=10` apply), validated
against `page ≥ 1`, `1 ≤ per_page ≤ 100` before the handler runs. -/
def v1_list_request (pageParam per_pageParam : Option Int) (db : Db) :
    RequestResult SimplePaginatedPurchaseOrderResponse :=
  let page := pageParam.getD 1
  let per_page := per_pageParam.getD 10
  if 1 ≤ page ∧ 1 ≤ per_page ∧ per_page ≤ 100 then
    .ok (get_purchase_orders_v1 page per_page db)
  else .validationError

/-- Full v2 list request: optional raw `cursor` (no bounds declared) and
`limit` (default 10, validated against `1 ≤ limit ≤ 100`). -/
def v2_list_request (cursorParam limitParam : Option Int) (db : Db) :
    RequestResult PaginatedPurchaseOrderResponse :=
  let limit := limitParam.getD 10
  if 1 ≤ limit ∧ limit ≤ 100 then
    .ok (get_purchase_orders_v2 cursorParam limit db)
  else .validationError

/-- Full single-order fetch request: the raw path segment either parses as
an integer id (`some i`) or not (`none`, rejected 422 before the handler). -/
def v1_get_request (rawId : Option Int) (db : Db) :
    RequestResult (Except HTTPException PurchaseOrder) :=
  match rawId with
  | none => .validationError
  | some i => .ok (get_purchase_order_v1 i db)

/-- Full delete request: a non-integer path id is rejected 422 before the
handler, leaving the table untouched. -/
def v1_delete_request (rawId : Option Int) (db : Db) :
    RequestResult (Except HTTPException Unit) × Db :=
  match rawId with
  | none => (.validationError, db)
  | some i =>
    let r := delete_purchase_order_v1 i db
    (.ok r.1, r.2)

/-- Session bookkeeping for the scoped-session dependency: how many storage
sessions have been opened and closed so far. -/
structure SessionLog where
  opened : Nat
  closed : Nat
deriving DecidableEq, Repr

/-- `db = SessionLocal()` — one session acquired. -/
def sessionOpen (s : SessionLog) : SessionLog :=
  { opened := s.opened + 1, closed := s.closed }

/-- `db.close()` — one session released. -/
def sessionClose (s : SessionLog) : SessionLog :=
  { opened := s.opened, closed := s.closed + 1 }

/-- The `get_db` dependency: acquires a session, yields it to the handler
body (whose outcome — normal value or `HTTPException`, both captured in the
body's return type — is produced in the `try`), and closes the session in
the `finally`, i.e. after the body on every path. -/
def get_db {α : Type} (body : Db → α) (db : Db) (log : SessionLog) :
    α × SessionLog :=
  let log1 := sessionOpen log
  let result := body db
  let log2 := sessionClose log1
  (result, log2)

/-- Exhaustive cursor walk: call the v2 list endpoint, and while `has_more`
holds feed `next_cursor` into the next call, concatenating the `data`
arrays.  `fuel` bounds the number of calls (any bound of at least the table
size is enough). -/
def collectPages (db : Db) (limit : Int) : Option Int → Nat → List PurchaseOrder
  | _, 0 => []
  | cursor, fuel + 1 =>
    let resp := get_purchase_orders_v2 cursor limit db
    if resp.has_more then
      resp.data ++ collectPages db limit resp.next_cursor fuel
    else
      resp.data

/-- Full v2 single-order fetch request: same path-parameter validation as
v1. -/
def v2_get_request (rawId : Option Int) (db : Db) :
    RequestResult (Except HTTPException PurchaseOrder) :=
  match rawId with
  | none => .validationError
  | some i => .ok (get_purchase_order_v2 i db)

/-- Full legacy single-order fetch request: same path-parameter validation
as v1. -/
def legacy_get_request (rawId : Option Int) (db : Db) :
    RequestResult (Except HTTPException PurchaseOrder) :=
  match rawId with
  | none => .validationError
  | some i => .ok (get_purchase_order_legacy i db)

/-- Full v2 delete request: same path-parameter validation as v1. -/
def v2_delete_request (rawId : Option Int) (db : Db) :
    RequestResult (Except HTTPException Unit) × Db :=
  match rawId with
  | none => (.validationError, db)
  | some i =>
    let r := delete_purchase_order_v2 i db
    (.ok r.1, r.2)

/-- Full legacy delete request: same path-parameter validation as v1. -/
def legacy_delete_request (rawId : Option Int) (db : Db) :
    RequestResult (Except HTTPException Unit) × Db :=
  match rawId with
  | none => (.validationError, db)
  | some i =>
    let r := delete_purchase_order_legacy i db
    (.ok r.1, r.2)

/-- Full legacy list request: the legacy route declares the same `Query`
defaults and bounds as v1 (`page=1, ge=1`; `per_page=10, ge=1, le=100`). -/
def legacy_list_request (pageParam per_pageParam : Option Int) (db : Db) :
    RequestResult SimplePaginatedPurchaseOrderResponse :=
  let page := pageParam.getD 1
  let per_page := per_pageParam.getD 10
  if 1 ≤ page ∧ 1 ≤ per_page ∧ per_page ≤ 100 then
    .ok (get_purchase_orders_legacy page per_page db)
  else .validationError

/-! Concrete instances used by witnesses. -/

def exDate : CalDate := ⟨2024, 1, 1⟩

def exRow1 : PurchaseOrder := ⟨1, "alpha", exDate, ⟨2024, 1, 10⟩, 2, 3, 6⟩

def exRow2 : PurchaseOrder := ⟨2, "beta", exDate, ⟨2024, 1, 11⟩, 1, 5, 5⟩

def exRow3 : PurchaseOrder := ⟨3, "gamma", exDate, ⟨2024, 1, 12⟩, 4, 2, 8⟩

def dbEx : Db := ⟨[exRow1, exRow2, exRow3], 4⟩

def oEx : PurchaseOrderCreate := ⟨"Widget", exDate, ⟨2024, 1, 10⟩, 4, 5/2⟩

/-! ## Basic facts about the embedded operations -/

lemma afterCursor_sublist (c : Option Int) (rows : List PurchaseOrder) :
    (afterCursor c rows).Sublist rows := by
  cases c with
  | none => exact List.Sublist.refl rows
  | some c0 => exact List.filter_sublist rows

lemma afterCursor_pairwise (c : Option Int) (rows : List PurchaseOrder)
    (h : rows.Pairwise (fun a b => a.id < b.id)) :
    (afterCursor c rows).Pairwise (fun a b => a.id < b.id) :=
  List.Pairwise.sublist (afterCursor_sublist c rows) h

lemma v2_data_sublist (c : Option Int) (l : Int) (db : Db) :
    (get_purchase_orders_v2 c l db).data.Sublist db.rows := by
  unfold get_purchase_orders_v2
  dsimp only
  split
  · exact ((List.take_sublist _ _).trans (List.take_sublist _ _)).trans
      (afterCursor_sublist c db.rows)
  · exact (List.take_sublist _ _).trans (afterCursor_sublist c db.rows)

lemma get_v1_ok_mem (i : Int) (db : Db) (r : PurchaseOrder)
    (h : get_purchase_order_v1 i db = .ok r) : r ∈ db.rows := by
  unfold get_purchase_order_v1 at h
  cases hf : db.rows.find? (fun x => x.id == i) with
  | none => rw [hf] at h; cases h
  | some o =>
    rw [hf] at h
    cases h
    exact List.mem_of_find?_eq_some hf

/-- C1: every create (legacy, v1, v2) stores and returns
`total_price = quantity * unit_price` computed at creation, and fetch/list
operations only hand back stored rows unchanged — none recomputes or alters
the field. -/
theorem total_price_derived_at_creation (o : PurchaseOrderCreate) (db : Db) :
    (create_purchase_order_v1 o db).1.total_price = o.quantity * o.unit_price ∧
    (create_purchase_order_v2 o db).1.total_price = o.quantity * o.unit_price ∧
    (create_purchase_order_legacy o db).1.total_price = o.quantity * o.unit_price ∧
    (create_purchase_order_v1 o db).2.rows = db.rows ++ [(create_purchase_order_v1 o db).1] ∧
    (create_purchase_order_v2 o db).2.rows = db.rows ++ [(create_purchase_order_v2 o db).1] ∧
    (∀ (i : Int) (r : PurchaseOrder), get_purchase_order_v1 i db = .ok r → r ∈ db.rows) ∧
    (∀ (i : Int) (r : PurchaseOrder), get_purchase_order_v2 i db = .ok r → r ∈ db.rows) ∧
    (∀ (i : Int) (r : PurchaseOrder), get_purchase_order_legacy i db = .ok r → r ∈ db.rows) ∧
    (∀ (page per_page : Int) (r : PurchaseOrder),
      r ∈ (get_purchase_orders_v1 page per_page db).data → r ∈ db.rows) ∧
    (∀ (page per_page : Int) (r : PurchaseOrder),
      r ∈ (get_purchase_orders_legacy page per_page db).data → r ∈ db.rows) ∧
    (∀ (c : Option Int) (l : Int) (r : PurchaseOrder),
      r ∈ (get_purchase_orders_v2 c l db).data → r ∈ db.rows) := by
  refine ⟨rfl, rfl, rfl, rfl, rfl, ?_, ?_, ?_, ?_, ?_, ?_⟩
  · exact fun i r h => get_v1_ok_mem i db r h
  · exact fun i r h => get_v1_ok_mem i db r h
  · exact fun i r h => get_v1_ok_mem i db r h
  · intro page per_page r h
    exact ((List.take_sublist _ _).trans (List.drop_sublist _ _)).subset h
  · intro page per_page r h
    exact ((List.take_sublist _ _).trans (List.drop_sublist _ _)).subset h
  · intro c l r h
    exact (v2_data_sublist c l db).subset h

theorem total_price_derived_at_creation_witness :
    (create_purchase_order_v1 oEx dbEx).1.total_price = oEx.quantity * oEx.unit_price ∧
    exRow1 ∈ dbEx.rows := by
  obtain ⟨h1, -, -, -, -, h6, -⟩ := total_price_derived_at_creation oEx dbEx
  exact ⟨h1, h6 1 exRow1 (by decide)⟩

/-- C6: the legacy handlers return exactly what the v1 handlers return, and
single-item fetch, create, and delete behave identically across the legacy,
v1, and v2 groups (same response value and same resulting state). -/
theorem cross_version_equivalence (db : Db) (i page per_page : Int)
    (o : PurchaseOrderCreate) :
    get_purchase_orders_legacy page per_page db = get_purchase_orders_v1 page per_page db ∧
    get_purchase_order_legacy i db = get_purchase_order_v1 i db ∧
    create_purchase_order_legacy o db = create_purchase_order_v1 o db ∧
    delete_purchase_order_legacy i db = delete_purchase_order_v1 i db ∧
    get_purchase_order_v2 i db = get_purchase_order_v1 i db ∧
    create_purchase_order_v2 o db = create_purchase_order_v1 o db ∧
    delete_purchase_order_v2 i db = delete_purchase_order_v1 i db :=
  ⟨rfl, rfl, rfl, rfl, rfl, rfl, rfl⟩

/-- C8: every request acquires exactly one storage session and the `finally`
releases it after the handler body on every path — the session accounting
after `get_db` shows one more open and one more close than before, whatever
the body computed, including when the body's outcome is an `HTTPException`
such as a 404. -/
theorem scoped_session_released_on_all_paths {α : Type} (body : Db → α)
    (db : Db) (log : SessionLog) :
    (get_db body db log).2.opened = log.opened + 1 ∧
    (get_db body db log).2.closed = log.closed + 1 ∧
    (get_db body db log).1 = body db ∧
    (∀ (i : Int),
      (get_db (fun d => get_purchase_order_v1 i d) db log).2.opened = log.opened + 1 ∧
      (get_db (fun d => get_purchase_order_v1 i d) db log).2.closed = log.closed + 1) ∧
    (∀ (e : HTTPException) (body2 : Db → Except HTTPException PurchaseOrder),
      body2 db = .error e →
      (get_db body2 db log).1 = .error e ∧
      (get_db body2 db log).2.opened = log.opened + 1 ∧
      (get_db body2 db log).2.closed = log.closed + 1) := by
  refine ⟨rfl, rfl, rfl, fun i => ⟨rfl, rfl⟩, ?_⟩
  intro e body2 h
  exact ⟨h, rfl, rfl⟩

theorem scoped_session_released_on_all_paths_witness :
    (get_db (fun d => get_purchase_order_v1 9 d) dbEx ⟨0, 0⟩).1 =
      .error ⟨404, "Purchase order not found"⟩ ∧
    (get_db (fun d => get_purchase_order_v1 9 d) dbEx ⟨0, 0⟩).2.opened = 0 + 1 ∧
    (get_db (fun d => get_purchase_order_v1 9 d) dbEx ⟨0, 0⟩).2.closed = 0 + 1 :=
  (scoped_session_released_on_all_paths (fun d => get_purchase_order_v1 9 d) dbEx
    ⟨0, 0⟩).2.2.2.2 ⟨404, "Purchase order not found"⟩
    (fun d => get_purchase_order_v1 9 d) (by decide)

/-! ## Lookup and deletion facts -/

lemma find?_id_eq_none_of (rows : List PurchaseOrder) (i : Int)
    (h : ∀ r ∈ rows, r.id ≠ i) :
    rows.find? (fun x => x.id == i) = none :=
  List.find?_eq_none.mpr (fun x hx => by simp [h x hx])

lemma find?_id_isSome_of (rows : List PurchaseOrder) (i : Int)
    (r : PurchaseOrder) (hr : r ∈ rows) (hi : r.id = i) :
    ∃ o, rows.find? (fun x => x.id == i) = some o := by
  cases hcase : rows.find? (fun x => x.id == i) with
  | some o => exact ⟨o, hcase ▸ rfl⟩
  | none =>
    exfalso
    have h := List.find?_eq_none.mp hcase r hr
    simp [hi] at h

/-- Under distinct ids, erasing by id keeps exactly the rows whose id
differs. -/
lemma mem_eraseP_id_iff (rows : List PurchaseOrder)
    (hnd : rows.Pairwise (fun a b => a.id < b.id)) (i : Int) (r : PurchaseOrder) :
    r ∈ rows.eraseP (fun x => x.id == i) ↔ r ∈ rows ∧ r.id ≠ i := by
  induction rows with
  | nil => simp
  | cons x t ih =>
    have hx_t := (List.pairwise_cons.mp hnd).1
    have ht := (List.pairwise_cons.mp hnd).2
    by_cases hx : x.id = i
    · rw [List.eraseP_cons_of_pos (by simp [hx])]
      constructor
      · intro hr
        refine ⟨List.mem_cons_of_mem x hr, ?_⟩
        have hlt := hx_t r hr
        omega
      · rintro ⟨hr, hne⟩
        rcases List.mem_cons.mp hr with h1 | h1
        · rw [h1] at hne; exact absurd hx hne
        · exact h1
    · rw [List.eraseP_cons_of_neg (by simp [hx])]
      constructor
      · intro hr
        rcases List.mem_cons.mp hr with h1 | h1
        · rw [h1]; exact ⟨List.mem_cons_self x t, by rw [← h1] at hx ⊢; exact hx⟩
        · have h2 := (ih ht).mp h1
          exact ⟨List.mem_cons_of_mem x h2.1, h2.2⟩
      · rintro ⟨hr, hne⟩
        rcases List.mem_cons.mp hr with h1 | h1
        · rw [h1]; exact List.mem_cons_self x _
        · exact List.mem_cons_of_mem x ((ih ht).mpr ⟨h1, hne⟩)

lemma delete_v1_found (db : Db) (i : Int) (r0 : PurchaseOrder)
    (hr0 : r0 ∈ db.rows) (hi : r0.id = i) :
    (delete_purchase_order_v1 i db).1 = .ok () ∧
    (delete_purchase_order_v1 i db).2.rows = db.rows.eraseP (fun x => x.id == i) ∧
    (delete_purchase_order_v1 i db).2.nextId = db.nextId := by
  obtain ⟨o, ho⟩ := find?_id_isSome_of db.rows i r0 hr0 hi
  unfold delete_purchase_order_v1
  rw [ho]
  exact ⟨rfl, rfl, rfl⟩

lemma delete_v1_not_found (db : Db) (i : Int) (h : ∀ r ∈ db.rows, r.id ≠ i) :
    delete_purchase_order_v1 i db = (.error ⟨404, "Purchase order not found"⟩, db) := by
  unfold delete_purchase_order_v1
  rw [find?_id_eq_none_of db.rows i h]

lemma get_v1_not_found (db : Db) (i : Int) (h : ∀ r ∈ db.rows, r.id ≠ i) :
    get_purchase_order_v1 i db = .error ⟨404, "Purchase order not found"⟩ := by
  unfold get_purchase_order_v1
  rw [find?_id_eq_none_of db.rows i h]

/-- C5: on an id with no matching row, single-item GET and DELETE of every
version return 404 and leave the table unchanged; on an existing id DELETE
returns 204 and removes the row, so a second DELETE of the same id returns
404 (and also leaves the once-deleted state unchanged). -/
theorem delete_idempotent_and_404_contract (db : Db) (hdb : DbOk db) (i : Int) :
    ((∀ r ∈ db.rows, r.id ≠ i) →
      getStatus (get_purchase_order_v1 i db) = 404 ∧
      getStatus (get_purchase_order_v2 i db) = 404 ∧
      getStatus (get_purchase_order_legacy i db) = 404 ∧
      deleteStatus (delete_purchase_order_v1 i db).1 = 404 ∧
      (delete_purchase_order_v1 i db).2 = db ∧
      deleteStatus (delete_purchase_order_v2 i db).1 = 404 ∧
      (delete_purchase_order_v2 i db).2 = db ∧
      deleteStatus (delete_purchase_order_legacy i db).1 = 404 ∧
      (delete_purchase_order_legacy i db).2 = db) ∧
    (∀ r0 ∈ db.rows, r0.id = i →
      deleteStatus (delete_purchase_order_v1 i db).1 = 204 ∧
      (∀ r, r ∈ (delete_purchase_order_v1 i db).2.rows ↔ r ∈ db.rows ∧ r.id ≠ i) ∧
      deleteStatus (delete_purchase_order_v1 i (delete_purchase_order_v1 i db).2).1 = 404 ∧
      (delete_purchase_order_v1 i (delete_purchase_order_v1 i db).2).2 =
        (delete_purchase_order_v1 i db).2) := by
  constructor
  · intro h
    have hg : getStatus (get_purchase_order_v1 i db) = 404 := by
      rw [get_v1_not_found db i h]; rfl
    have hd1 : deleteStatus (delete_purchase_order_v1 i db).1 = 404 := by
      rw [delete_v1_not_found db i h]; rfl
    have hd2 : (delete_purchase_order_v1 i db).2 = db := by
      rw [delete_v1_not_found db i h]
    exact ⟨hg, hg, hg, hd1, hd2, hd1, hd2, hd1, hd2⟩
  · intro r0 hr0 hi
    obtain ⟨hok, hrows, -⟩ := delete_v1_found db i r0 hr0 hi
    have hmem : ∀ r, r ∈ (delete_purchase_order_v1 i db).2.rows ↔ r ∈ db.rows ∧ r.id ≠ i := by
      intro r
      rw [hrows]
      exact mem_eraseP_id_iff db.rows hdb.1 i r
    have hnone : ∀ r ∈ (delete_purchase_order_v1 i db).2.rows, r.id ≠ i :=
      fun r hr => ((hmem r).mp hr).2
    have h2 := delete_v1_not_found (delete_purchase_order_v1 i db).2 i hnone
    refine ⟨by rw [hok]; rfl, hmem, by rw [h2]; rfl, by rw [h2]⟩

theorem delete_idempotent_and_404_contract_witness :
    DbOk dbEx ∧
    deleteStatus (delete_purchase_order_v1 2 dbEx).1 = 204 ∧
    deleteStatus (delete_purchase_order_v1 2 (delete_purchase_order_v1 2 dbEx).2).1 = 404 := by
  refine ⟨by decide, ?_, ?_⟩ <;>
  · obtain ⟨h204, -, h404, -⟩ :=
      (delete_idempotent_and_404_contract dbEx (by decide) 2).2 exRow2 (by decide) (by decide)
    first | exact h204 | exact h404

/-- C10: create appends exactly one new row (its id is fresh) and keeps
every pre-existing row with all fields intact; delete of an existing id
removes exactly the rows with that id (one, by primary-key uniqueness) and
keeps every other row. -/
theorem create_delete_frame_effects (db : Db) (hdb : DbOk db)
    (o : PurchaseOrderCreate) (i : Int) :
    (create_purchase_order_v1 o db).2.rows = db.rows ++ [(create_purchase_order_v1 o db).1] ∧
    (create_purchase_order_v1 o db).1 ∉ db.rows ∧
    (create_purchase_order_v1 o db).2.rows.length = db.rows.length + 1 ∧
    (∀ r ∈ db.rows, r ∈ (create_purchase_order_v1 o db).2.rows) ∧
    (create_purchase_order_v2 o db).2.rows = db.rows ++ [(create_purchase_order_v2 o db).1] ∧
    (∀ r0 ∈ db.rows, r0.id = i →
      (delete_purchase_order_v1 i db).2.rows.length + 1 = db.rows.length ∧
      (∀ r ∈ db.rows, r.id ≠ i → r ∈ (delete_purchase_order_v1 i db).2.rows) ∧
      (∀ r ∈ (delete_purchase_order_v1 i db).2.rows, r ∈ db.rows ∧ r.id ≠ i)) := by
  refine ⟨rfl, ?_, by simp [create_purchase_order_v1], fun r hr => List.mem_append_left _ hr,
    rfl, ?_⟩
  · intro hmem
    have h2 := hdb.2 _ hmem
    exact lt_irrefl db.nextId h2
  · intro r0 hr0 hi
    obtain ⟨-, hrows, -⟩ := delete_v1_found db i r0 hr0 hi
    have hmem : ∀ r, r ∈ (delete_purchase_order_v1 i db).2.rows ↔ r ∈ db.rows ∧ r.id ≠ i := by
      intro r
      rw [hrows]
      exact mem_eraseP_id_iff db.rows hdb.1 i r
    refine ⟨?_, fun r hr hne => (hmem r).mpr ⟨hr, hne⟩, fun r hr => (hmem r).mp hr⟩
    rw [hrows, List.length_eraseP_of_mem hr0 (by simp [hi])]
    have hpos : 0 < db.rows.length := List.length_pos_of_mem hr0
    omega

theorem create_delete_frame_effects_witness :
    DbOk dbEx ∧ (delete_purchase_order_v1 2 dbEx).2.rows.length + 1 = dbEx.rows.length := by
  refine ⟨by decide, ?_⟩
  exact ((create_delete_frame_effects dbEx (by decide) oEx 2).2.2.2.2.2 exRow2
    (by decide) (by decide)).1

/-- C7: out-of-range pagination parameters (`page < 1`, `per_page` or
`limit` outside `[1,100]`) and non-integer path ids are rejected with the
422 validation error before the handler runs — the outcome is independent
of the stored table, and the table is left unchanged. -/
theorem validation_rejected_before_data_layer (db db2 : Db)
    (pageParam per_pageParam cursorParam limitParam : Option Int) :
    (¬(1 ≤ pageParam.getD 1 ∧ 1 ≤ per_pageParam.getD 10 ∧ per_pageParam.getD 10 ≤ 100) →
      v1_list_request pageParam per_pageParam db = .validationError ∧
      legacy_list_request pageParam per_pageParam db = .validationError ∧
      v1_list_request pageParam per_pageParam db = v1_list_request pageParam per_pageParam db2) ∧
    (¬(1 ≤ limitParam.getD 10 ∧ limitParam.getD 10 ≤ 100) →
      v2_list_request cursorParam limitParam db = .validationError ∧
      v2_list_request cursorParam limitParam db = v2_list_request cursorParam limitParam db2) ∧
    v1_get_request none db = .validationError ∧
    v2_get_request none db = .validationError ∧
    legacy_get_request none db = .validationError ∧
    v1_delete_request none db = (.validationError, db) ∧
    v2_delete_request none db = (.validationError, db) ∧
    legacy_delete_request none db = (.validationError, db) := by
  refine ⟨?_, ?_, rfl, rfl, rfl, rfl, rfl, rfl⟩
  · intro h
    refine ⟨?_, ?_, ?_⟩ <;>
      simp only [v1_list_request, legacy_list_request] <;>
      rw [if_neg h]
    rw [if_neg h]
  · intro h
    refine ⟨?_, ?_⟩ <;>
      simp only [v2_list_request] <;>
      rw [if_neg h]
    rw [if_neg h]

theorem validation_rejected_before_data_layer_witness :
    v1_list_request (some 0) (some 10) dbEx = .validationError ∧
    v2_list_request none (some 101) dbEx = .validationError ∧
    v1_delete_request none dbEx = (.validationError, dbEx) := by
  obtain ⟨h1, h2, -, -, -, h6, -, -⟩ :=
    validation_rejected_before_data_layer dbEx dbEx (some 0) (some 10) none (some 101)
  exact ⟨(h1 (by decide)).1, (h2 (by decide)).1, h6⟩

/-! ## Cursor pagination: one-page characterization -/

lemma v2_spec (c : Option Int) (l : Int) (db : Db) (hl : 1 ≤ l) :
    (get_purchase_orders_v2 c l db).data = (afterCursor c db.rows).take l.toNat ∧
    ((get_purchase_orders_v2 c l db).has_more = true ↔
      l.toNat < (afterCursor c db.rows).length) ∧
    (get_purchase_orders_v2 c l db).next_cursor =
      (if l.toNat < (afterCursor c db.rows).length
       then ((afterCursor c db.rows).take l.toNat).getLast?
       else none).map (fun r => r.id) := by
  have htn : (l + 1).toNat = l.toNat + 1 := by omega
  have hlen0 : ((afterCursor c db.rows).take (l + 1).toNat).length =
      min (l + 1).toNat (afterCursor c db.rows).length := List.length_take _ _
  by_cases hm : l.toNat < (afterCursor c db.rows).length
  · have hb : decide (l < (((afterCursor c db.rows).take (l + 1).toNat).length : Int)) = true := by
      rw [decide_eq_true_iff, hlen0, htn]
      omega
    refine ⟨?_, ?_, ?_⟩
    · simp only [get_purchase_orders_v2, hb, if_true]
      rw [htn, List.take_take, min_eq_left (Nat.le_succ _)]
    · simp only [get_purchase_orders_v2, hb]
      simpa using hm
    · simp only [get_purchase_orders_v2, hb, if_true, if_pos hm]
      rw [htn, List.take_take, min_eq_left (Nat.le_succ _)]
      cases hgl : ((afterCursor c db.rows).take l.toNat).getLast? with
      | none => simp
      | some r => simp
  · have hb : decide (l < (((afterCursor c db.rows).take (l + 1).toNat).length : Int)) = false := by
      rw [decide_eq_false_iff_not, hlen0, htn]
      omega
    have hslen : (afterCursor c db.rows).length ≤ l.toNat := le_of_not_lt hm
    refine ⟨?_, ?_, ?_⟩
    · simp only [get_purchase_orders_v2, hb, Bool.false_eq_true, if_false]
      rw [List.take_of_length_le (by omega), List.take_of_length_le hslen]
    · simp only [get_purchase_orders_v2, hb]
      simpa using hm
    · simp only [get_purchase_orders_v2, hb, if_neg hm]
      cases hgl : (((afterCursor c db.rows).take (l + 1).toNat).take l.toNat).getLast? with
      | none => simp
      | some r => simp

/-- C3: one v2 list call returns the first `limit` rows past the cursor in
ascending id order (all of them when `has_more` is false), sets `has_more`
exactly when more than `limit` such rows exist, sets `next_cursor` to the id
of the last returned row when `has_more` is true and to null otherwise, and
an empty result set gives `data = []`, `next_cursor = none`,
`has_more = false`. -/
theorem v2_single_page_contract (db : Db) (hdb : DbOk db) (cursor : Option Int)
    (limit : Int) (h1 : 1 ≤ limit) (h2 : limit ≤ 100) :
    (get_purchase_orders_v2 cursor limit db).data =
      (afterCursor cursor db.rows).take limit.toNat ∧
    ((get_purchase_orders_v2 cursor limit db).has_more = true ↔
      limit.toNat < (afterCursor cursor db.rows).length) ∧
    ((get_purchase_orders_v2 cursor limit db).has_more = false →
      (get_purchase_orders_v2 cursor limit db).data = afterCursor cursor db.rows) ∧
    (get_purchase_orders_v2 cursor limit db).next_cursor =
      (if (get_purchase_orders_v2 cursor limit db).has_more
       then (get_purchase_orders_v2 cursor limit db).data.getLast?
       else none).map (fun r => r.id) ∧
    ((get_purchase_orders_v2 cursor limit db).has_more = true →
      (get_purchase_orders_v2 cursor limit db).data ≠ []) ∧
    (get_purchase_orders_v2 cursor limit db).data.Pairwise (fun a b => a.id < b.id) ∧
    (afterCursor cursor db.rows = [] →
      (get_purchase_orders_v2 cursor limit db).data = [] ∧
      (get_purchase_orders_v2 cursor limit db).next_cursor = none ∧
      (get_purchase_orders_v2 cursor limit db).has_more = false) := by
  obtain ⟨hdata, hmore, hnext⟩ := v2_spec cursor limit db h1
  refine ⟨hdata, hmore, ?_, ?_, ?_,
    List.Pairwise.sublist (v2_data_sublist cursor limit db) hdb.1, ?_⟩
  · intro hfalse
    have hnotlt : ¬ limit.toNat < (afterCursor cursor db.rows).length := by
      intro hlt
      rw [hmore.mpr hlt] at hfalse
      cases hfalse
    rw [hdata, List.take_of_length_le (le_of_not_lt hnotlt)]
  · by_cases hm : limit.toNat < (afterCursor cursor db.rows).length
    · rw [hnext, if_pos hm, hmore.mpr hm, hdata]
      simp
    · have hf : (get_purchase_orders_v2 cursor limit db).has_more = false := by
        cases hbm : (get_purchase_orders_v2 cursor limit db).has_more
        · rfl
        · exact absurd (hmore.mp hbm) hm
      rw [hnext, if_neg hm, hf]
      simp
  · intro ht
    have hm := hmore.mp ht
    rw [hdata]
    have hlen : ((afterCursor cursor db.rows).take limit.toNat).length = limit.toNat := by
      rw [List.length_take]
      omega
    intro hnil
    rw [hnil] at hlen
    simp at hlen
    omega
  · intro hsnil
    have h0 : (afterCursor cursor db.rows).length = 0 := by rw [hsnil]; rfl
    have hm : ¬ limit.toNat < (afterCursor cursor db.rows).length := by omega
    have hf : (get_purchase_orders_v2 cursor limit db).has_more = false := by
      cases hbm : (get_purchase_orders_v2 cursor limit db).has_more
      · rfl
      · exact absurd (hmore.mp hbm) hm
    refine ⟨by rw [hdata, hsnil, List.take_nil], ?_, hf⟩
    rw [hnext, if_neg hm]
    rfl

theorem v2_single_page_contract_witness :
    DbOk dbEx ∧ (1 : Int) ≤ 2 ∧ (2 : Int) ≤ 100 ∧
    ((get_purchase_orders_v2 (some 1) 2 dbEx).has_more = true ↔
      (2 : Int).toNat < (afterCursor (some 1) dbEx.rows).length) :=
  ⟨by decide, by decide, by decide,
    (v2_single_page_contract dbEx (by decide) (some 1) 2 (by decide) (by decide)).2.1⟩

/-- C9: with all pagination parameters omitted, the v1/legacy list runs with
`page = 1`, `per_page = 10`, and the v2 list runs with no cursor and
`limit = 10`, returning the first 10 stored rows in ascending id order. -/
theorem default_pagination_parameters (db : Db) (hdb : DbOk db) :
    v1_list_request none none db = .ok (get_purchase_orders_v1 1 10 db) ∧
    legacy_list_request none none db = .ok (get_purchase_orders_legacy 1 10 db) ∧
    v2_list_request none none db = .ok (get_purchase_orders_v2 none 10 db) ∧
    (get_purchase_orders_v2 none 10 db).data = db.rows.take 10 ∧
    (get_purchase_orders_v2 none 10 db).data.Pairwise (fun a b => a.id < b.id) := by
  refine ⟨?_, ?_, ?_, ?_, List.Pairwise.sublist (v2_data_sublist none 10 db) hdb.1⟩
  · simp only [v1_list_request, Option.getD_none]
    rw [if_pos (by norm_num)]
  · simp only [legacy_list_request, Option.getD_none]
    rw [if_pos (by norm_num)]
  · simp only [v2_list_request, Option.getD_none]
    rw [if_pos (by norm_num)]
  · have h := (v2_spec none 10 db (by norm_num)).1
    rw [h]
    rfl

theorem default_pagination_parameters_witness :
    DbOk dbEx ∧ v2_list_request none none dbEx = .ok (get_purchase_orders_v2 none 10 dbEx) :=
  ⟨by decide, (default_pagination_parameters dbEx (by decide)).2.2.1⟩

/-! ## Cursor pagination: the exhaustive walk -/

lemma le_of_getLast?_sorted :
    ∀ (t : List PurchaseOrder) (r : PurchaseOrder),
      t.Pairwise (fun a b => a.id < b.id) → t.getLast? = some r →
      ∀ a ∈ t, a.id ≤ r.id := by
  intro t
  induction t with
  | nil =>
    intro r _ h a ha
    simp at h
  | cons x t ih =>
    intro r hp hl a ha
    cases t with
    | nil =>
      rw [List.getLast?_singleton] at hl
      cases hl
      rcases List.mem_singleton.mp ha with rfl
      exact le_refl _
    | cons y t2 =>
      rw [List.getLast?_cons_cons] at hl
      have hx := (List.pairwise_cons.mp hp).1
      have hp2 := (List.pairwise_cons.mp hp).2
      rcases List.mem_cons.mp ha with rfl | ha2
      · have hrmem : r ∈ y :: t2 := List.mem_of_mem_getLast? (Option.mem_def.mpr hl)
        exact le_of_lt (hx r hrmem)
      · exact ih r hp2 hl a ha2

/-- On a strictly-ascending list, keeping the rows with id above the last
id of the first `n` rows is exactly dropping those first `n` rows. -/
lemma filter_gt_of_take_getLast (s : List PurchaseOrder)
    (hs : s.Pairwise (fun a b => a.id < b.id)) (n : Nat) (r : PurchaseOrder)
    (hr : (s.take n).getLast? = some r) :
    s.filter (fun a => r.id < a.id) = s.drop n := by
  have hsplit : s.take n ++ s.drop n = s := List.take_append_drop n s
  have hps : (s.take n ++ s.drop n).Pairwise (fun a b => a.id < b.id) := by
    rw [hsplit]; exact hs
  obtain ⟨hp1, hp2, hcross⟩ := List.pairwise_append.mp hps
  have hrmem : r ∈ s.take n := List.mem_of_mem_getLast? (Option.mem_def.mpr hr)
  calc s.filter (fun a => r.id < a.id)
      = (s.take n ++ s.drop n).filter (fun a => r.id < a.id) := by rw [hsplit]
    _ = (s.take n).filter (fun a => r.id < a.id) ++
          (s.drop n).filter (fun a => r.id < a.id) := List.filter_append _ _
    _ = [] ++ s.drop n := by
        congr 1
        · rw [List.filter_eq_nil_iff]
          intro a ha
          have hle := le_of_getLast?_sorted (s.take n) r hp1 hr a ha
          simp only [decide_eq_true_eq]
          omega
        · rw [List.filter_eq_self]
          intro a ha
          have hlt := hcross r hrmem a ha
          simp only [decide_eq_true_eq]
          omega
    _ = s.drop n := List.nil_append _

/-- Feeding the id of the last row of a page back as the cursor queries
exactly the remaining rows. -/
lemma afterCursor_step (rows : List PurchaseOrder)
    (hrows : rows.Pairwise (fun a b => a.id < b.id)) (c : Option Int) (n : Nat)
    (r : PurchaseOrder) (hr : ((afterCursor c rows).take n).getLast? = some r) :
    afterCursor (some r.id) rows = (afterCursor c rows).drop n := by
  have hs : (afterCursor c rows).Pairwise (fun a b => a.id < b.id) :=
    afterCursor_pairwise c rows hrows
  cases c with
  | none => exact filter_gt_of_take_getLast rows hrows n r hr
  | some c0 =>
    have hrs : r ∈ afterCursor (some c0) rows :=
      (List.take_sublist n _).subset (List.mem_of_mem_getLast? (Option.mem_def.mpr hr))
    have hc0r : c0 < r.id := by
      have hp := List.of_mem_filter (show r ∈ rows.filter (fun a => decide (c0 < a.id)) from hrs)
      simpa using hp
    have hmain := filter_gt_of_take_getLast (afterCursor (some c0) rows) hs n r hr
    rw [← hmain]
    show rows.filter (fun a => decide (r.id < a.id)) =
      (rows.filter (fun a => decide (c0 < a.id))).filter (fun a => decide (r.id < a.id))
    rw [List.filter_filter]
    apply List.filter_congr
    intro a ha
    by_cases hra : r.id < a.id
    · have hca : c0 < a.id := lt_trans hc0r hra
      simp [hra, hca]
    · simp [hra]

/-- The cursor walk concatenates to exactly the queried result set, for any
fuel bound of at least the result-set size. -/
lemma collectPages_eq (db : Db) (hdb : db.rows.Pairwise (fun a b => a.id < b.id))
    (l : Int) (hl : 1 ≤ l) :
    ∀ (fuel : Nat) (c : Option Int), (afterCursor c db.rows).length ≤ fuel →
      collectPages db l c fuel = afterCursor c db.rows := by
  intro fuel
  induction fuel with
  | zero =>
    intro c hc
    have h0 : afterCursor c db.rows = [] :=
      List.eq_nil_of_length_eq_zero (Nat.le_zero.mp hc)
    simp only [collectPages]
    rw [h0]
  | succ fuel ih =>
    intro c hc
    obtain ⟨hdata, hmore, hnext⟩ := v2_spec c l db hl
    by_cases hm : l.toNat < (afterCursor c db.rows).length
    · have hbT : (get_purchase_orders_v2 c l db).has_more = true := hmore.mpr hm
      have hlen : ((afterCursor c db.rows).take l.toNat).length = l.toNat := by
        rw [List.length_take]; omega
      have hne : ((afterCursor c db.rows).take l.toNat) ≠ [] := by
        intro h0
        rw [h0] at hlen
        simp at hlen
        omega
      obtain ⟨r, hr⟩ := Option.isSome_iff_exists.mp (List.getLast?_isSome.mpr hne)
      have hnc : (get_purchase_orders_v2 c l db).next_cursor = some r.id := by
        rw [hnext, if_pos hm, hr]
        rfl
      have hstep : afterCursor (some r.id) db.rows = (afterCursor c db.rows).drop l.toNat :=
        afterCursor_step db.rows hdb c l.toNat r hr
      have hrec : collectPages db l (some r.id) fuel = afterCursor (some r.id) db.rows := by
        apply ih
        rw [hstep, List.length_drop]
        omega
      simp only [collectPages]
      rw [if_pos hbT, hdata, hnc, hrec, hstep, List.take_append_drop]
    · have hbF : (get_purchase_orders_v2 c l db).has_more = false := by
        cases hb2 : (get_purchase_orders_v2 c l db).has_more
        · rfl
        · exact absurd (hmore.mp hb2) hm
      simp only [collectPages]
      rw [if_neg (by rw [hbF]; exact Bool.false_ne_true), hdata,
        List.take_of_length_le (le_of_not_lt hm)]

/-- C2: starting from any cursor and any limit in `[1,100]`, repeatedly
calling the v2 list endpoint and feeding each `next_cursor` back until
`has_more` is false concatenates to exactly the stored rows with id
strictly greater than the initial cursor, in ascending id order (hence with
no duplicates and no gaps). -/
theorem v2_cursor_walk_complete (db : Db) (hdb : DbOk db) (c0 : Option Int)
    (limit : Int) (h1 : 1 ≤ limit) (h2 : limit ≤ 100) (fuel : Nat)
    (hfuel : db.rows.length ≤ fuel) :
    collectPages db limit c0 fuel = afterCursor c0 db.rows ∧
    (afterCursor c0 db.rows).Pairwise (fun a b => a.id < b.id) :=
  ⟨collectPages_eq db hdb.1 limit h1 fuel c0
      (le_trans (List.Sublist.length_le (afterCursor_sublist c0 db.rows)) hfuel),
    afterCursor_pairwise c0 db.rows hdb.1⟩

theorem v2_cursor_walk_complete_witness :
    DbOk dbEx ∧ (1 : Int) ≤ 1 ∧ (1 : Int) ≤ 100 ∧ dbEx.rows.length ≤ 5 ∧
    collectPages dbEx 1 (some 1) 5 = afterCursor (some 1) dbEx.rows :=
  ⟨by decide, by decide, by decide, by decide,
    (v2_cursor_walk_complete dbEx (by decide) (some 1) 1 (by decide) (by decide) 5
      (by decide)).1⟩

/-! ## Offset pagination -/

/-- Python's `(total + per_page - 1) // per_page` is the ceiling of
`total / per_page`. -/
lemma fdiv_pred_eq_ceilDiv (n k : Nat) (hk : 1 ≤ k) :
    Int.fdiv ((n : Int) + (k : Int) - 1) (k : Int) = ((n ⌈/⌉ k : Nat) : Int) := by
  have hnk : 1 ≤ n + k := by omega
  have h1 : (n : Int) + (k : Int) - 1 = ((n + k - 1 : Nat) : Int) := by
    rw [Nat.cast_sub hnk, Nat.cast_add, Nat.cast_one]
  rw [h1, Int.fdiv_eq_ediv _ (Int.natCast_nonneg k), ← Int.ofNat_ediv,
    Nat.ceilDiv_eq_add_pred_div]

/-- C4: the v1/legacy offset list reports `total` as the row count,
`total_pages` as the ceiling of `total / per_page` (0 when the table is
empty), returns the rows in ascending id order after skipping
`(page-1)*per_page` and capping at `per_page`, and any page past the last
one yields empty data while `total`/`total_pages` stay as computed. -/
theorem v1_offset_page_contract (db : Db) (hdb : DbOk db) (page per_page : Int)
    (hp : 1 ≤ page) (h1 : 1 ≤ per_page) (h2 : per_page ≤ 100) :
    (get_purchase_orders_v1 page per_page db).total = db.rows.length ∧
    (get_purchase_orders_v1 page per_page db).total_pages =
      ((db.rows.length ⌈/⌉ per_page.toNat : Nat) : Int) ∧
    (db.rows.length = 0 → (get_purchase_orders_v1 page per_page db).total_pages = 0) ∧
    (get_purchase_orders_v1 page per_page db).data =
      (db.rows.drop (((page - 1) * per_page).toNat)).take per_page.toNat ∧
    (get_purchase_orders_v1 page per_page db).data.Pairwise (fun a b => a.id < b.id) ∧
    (get_purchase_orders_v1 page per_page db).page = page ∧
    (get_purchase_orders_v1 page per_page db).per_page = per_page ∧
    (((db.rows.length ⌈/⌉ per_page.toNat : Nat) : Int) < page →
      (get_purchase_orders_v1 page per_page db).data = []) := by
  have hk : 1 ≤ per_page.toNat := by omega
  have hcast : ((per_page.toNat : Nat) : Int) = per_page := Int.toNat_of_nonneg (by omega)
  have htp : (get_purchase_orders_v1 page per_page db).total_pages =
      ((db.rows.length ⌈/⌉ per_page.toNat : Nat) : Int) := by
    show Int.fdiv ((db.rows.length : Int) + per_page - 1) per_page = _
    rw [← hcast]
    exact fdiv_pred_eq_ceilDiv db.rows.length per_page.toNat hk
  refine ⟨rfl, htp, ?_, rfl, ?_, rfl, rfl, ?_⟩
  · intro h0
    rw [htp, h0]
    simp
  · exact List.Pairwise.sublist
      ((List.take_sublist _ _).trans (List.drop_sublist _ _)) hdb.1
  · intro hbeyond
    set q : Int := (page - 1) * per_page with hqdef
    show (db.rows.drop q.toNat).take per_page.toNat = []
    have hn : db.rows.length ≤
        per_page.toNat * (db.rows.length ⌈/⌉ per_page.toNat) := by
      have hle := le_smul_ceilDiv (show 0 < per_page.toNat by omega)
        (b := db.rows.length)
      simpa [smul_eq_mul] using hle
    have h3 : ((db.rows.length ⌈/⌉ per_page.toNat : Nat) : Int) ≤ page - 1 := by omega
    have hq2 : (db.rows.length : Int) ≤ q := by
      rw [hqdef]
      calc (db.rows.length : Int)
          ≤ ((per_page.toNat * (db.rows.length ⌈/⌉ per_page.toNat) : Nat) : Int) := by
            exact_mod_cast hn
        _ = ((db.rows.length ⌈/⌉ per_page.toNat : Nat) : Int) * per_page := by
            rw [Nat.cast_mul, hcast, mul_comm]
        _ ≤ (page - 1) * per_page := mul_le_mul_of_nonneg_right h3 (by omega)
    have hlen : db.rows.length ≤ q.toNat := by omega
    rw [List.drop_eq_nil_of_le hlen, List.take_nil]

theorem v1_offset_page_contract_witness :
    DbOk dbEx ∧ (1 : Int) ≤ 5 ∧ (1 : Int) ≤ 2 ∧ (2 : Int) ≤ 100 ∧
    ((dbEx.rows.length ⌈/⌉ (2 : Int).toNat : Nat) : Int) < 5 ∧
    (get_purchase_orders_v1 5 2 dbEx).data = [] :=
  ⟨by decide, by decide, by decide, by decide, by decide,
    (v1_offset_page_contract dbEx (by decide) 5 2 (by decide) (by decide)
      (by decide)).2.2.2.2.2.2.2 (by decide)⟩
